import Mathlib

/-!
Shallow embedding of the toolkit package (random-string generation, slug
generation, multipart file upload, JSON reading/writing) together with
theorems settling spec claims about it.

Conventions of the embedding:
- Go byte slices become List Nat, Go strings become Lean String.
- The cryptographically secure random source (crypto/rand) is modelled by an
  oracle function supplying the successive draws; rand.Prime with 64 bits
  returns a prime p with 2^63 <= p < 2^64, captured by the predicate
  isPrimeDraw on the draws.
- Stateful HTTP interaction is modelled by explicit traces: file writes as a
  list of written paths, the HTTP response as a ResponseTrace record.
- Fallible Go code returning (value, error) becomes Except String / Option
  String; log.Fatal (process termination) and an index-out-of-range panic are
  distinct constructors of the outcome types, since they never return to the
  caller.
-/

namespace Toolkit

/-- The fixed 64-character alphabet of RandomString (source line 20). -/
def randomStringSource : String :=
  "abcdefghijklmnopqrstuvwxyzABCDEFGHIJKLMNOPQRSTUVWXYZ0123456789_+"

/-- The alphabet as the rune slice r that the Go code indexes into. -/
def randomStringSourceList : List Char := randomStringSource.toList

/-- Configuration struct Tools (source lines 24-29). -/
structure Tools where
  MaxFileSize : Nat
  AllowedTypes : List String
  MaxJSONSize : Nat
  AllowUnknownFields : Bool
deriving DecidableEq

/-- One draw of rand.Prime(rand.Reader, 64): a prime of exactly 64 bits.
The Go code then takes p.Uint64() (exact, since p < 2^64). -/
def isPrimeDraw (p : Nat) : Prop :=
  Nat.Prime p ∧ 2 ^ 63 ≤ p ∧ p < 2 ^ 64

/-- RandomString (source lines 33-46): for each position i it draws a value
p from the random source (modelled by the oracle) and picks the rune
r[p % len(r)].  Failure of the random source (log.Fatal) is outside the
oracle model: the oracle supplies the successful draws. -/
def RandomString (oracle : Nat → Nat) (n : Nat) : List Char :=
  (List.range n).map fun i =>
    randomStringSourceList.getD (oracle i % randomStringSourceList.length) ' '

/-- The character class [a-z/d] that the Slugify regex keeps: the regex in the
source is regexp [caret a-z/d]+ (source line 186), whose class lists the range
a-z, the character '/', and the character 'd'. -/
def isSlugKeep (c : Char) : Bool :=
  (decide ('a' ≤ c) && decide (c ≤ 'z')) || c == '/' || c == 'd'

/-- Collapse consecutive hyphens to a single hyphen.  Together with mapping
every non-kept character to '-', this realises ReplaceAllString of the
one-or-more regex: each maximal run of non-kept characters becomes one '-'
(a kept character is never '-', so runs are preserved by the pointwise map). -/
def squeezeHyphens : List Char → List Char
  | [] => []
  | [c] => [c]
  | a :: b :: rest =>
    if a == '-' && b == '-' then squeezeHyphens (b :: rest)
    else a :: squeezeHyphens (b :: rest)

/-- strings.Trim(s, "-"): drop leading and trailing hyphens. -/
def trimHyphens (cs : List Char) : List Char :=
  ((cs.dropWhile (fun c => c == '-')).reverse.dropWhile (fun c => c == '-')).reverse

/-- Slugify (source lines 181-197): reject empty input, lowercase, replace
every maximal run of characters outside the regex class [a-z/d] by a single
hyphen, trim hyphens, reject an empty result.  strings.ToLower is modelled
by Char.toLower (they agree on ASCII); the regexp.Compile error branch is
unreachable for this constant, valid pattern and is not modelled. -/
def Slugify (s : String) : Except String String :=
  if s.length < 1 then .error "empty strings are not permitted"
  else
    let lowered := s.toList.map Char.toLower
    let replaced := squeezeHyphens (lowered.map fun c => if isSlugKeep c then c else '-')
    let slug := trimHyphens replaced
    if slug.length ≤ 0 then .error "after removing characters, slug is of zero length"
    else .ok (String.mk slug)

/-- Modelled from the spec (section 4.4), for comparison with Slugify: the
character class the spec describes keeps the ASCII ranges a-z and 0-9. -/
def isSlugKeepSpec (c : Char) : Bool :=
  (decide ('a' ≤ c) && decide (c ≤ 'z')) || (decide ('0' ≤ c) && decide (c ≤ '9'))

/-- Modelled from the spec (section 4.4): lowercase, replace every maximal run
of characters outside a-z and 0-9 with a single hyphen, trim hyphens, with the
same empty-input and empty-result failures as the source. -/
def SlugifySpec (s : String) : Except String String :=
  if s.length < 1 then .error "empty strings are not permitted"
  else
    let lowered := s.toList.map Char.toLower
    let replaced := squeezeHyphens (lowered.map fun c => if isSlugKeepSpec c then c else '-')
    let slug := trimHyphens replaced
    if slug.length ≤ 0 then .error "after removing characters, slug is of zero length"
    else .ok (String.mk slug)

/-- UploadedFile record (source lines 49-53); FileSize as a Nat byte count. -/
structure UploadedFile where
  NewFileName : String
  OriginalFileName : String
  FileSize : Nat
deriving DecidableEq

/-- One multipart file part: the client-supplied file name of its header and
its content bytes. -/
structure Part where
  filename : String
  content : List Nat
deriving DecidableEq

/-- A request, reduced to what UploadFile consumes: the outcome of
r.ParseMultipartForm(maxSize), abstracted as a function of the size limit the
code passes in.  A parse error covers both a malformed multipart body and the
size-related failures of net/http. -/
structure Request where
  parse : Nat → Except String (List Part)

/-- The 512-byte sniffing buffer: Go allocates a zeroed 512-byte buffer and
Read fills its first min(len, 512) bytes; the whole buffer is then passed to
http.DetectContentType. -/
def buf512 (content : List Nat) : List Nat :=
  content.take 512 ++ List.replicate (512 - (content.take 512).length) 0

/-- The initial read of up to 512 bytes (source lines 104-108).  Per the
io.Reader contract, a read on an empty file yields io.EOF (message "EOF"),
which the code treats as a failure; a non-empty file yields data with no
error. -/
def read512 (content : List Nat) : Except String (List Nat) :=
  if content.isEmpty then .error "EOF" else .ok (buf512 content)

/-- Model of strings.EqualFold: equality after lowercasing character by
character (they agree on the ASCII MIME-type strings involved). -/
def equalFold (a b : String) : Bool :=
  a.toList.map Char.toLower == b.toList.map Char.toLower

/-- filepath.Ext: the suffix of the name starting at the final dot, empty if
the name contains no dot (path separators are not modelled). -/
def fileExt (name : String) : String :=
  if name.toList.contains '.' then
    String.mk ('.' :: ((name.toList.reverse.takeWhile fun c => c != '.').reverse))
  else ""

/-- ASCII whitespace, for the model of strings.TrimSpace. -/
def isSpaceChar (c : Char) : Bool :=
  c == ' ' || c == '\t' || c == '\n' || c == '\r'

/-- CreateDirIfNotExists (source lines 164-178): an empty or whitespace-only
path is an error; otherwise os.MkdirAll is modelled as succeeding (directory
I/O failures are outside the claims considered here).  strings.TrimSpace is
modelled by dropping ASCII whitespace from both ends. -/
def CreateDirIfNotExists (path : String) : Except String Unit :=
  if ((path.toList.dropWhile isSpaceChar).reverse.dropWhile isSpaceChar).length < 1 then
    .error "invalid path"
  else .ok ()

/-- The body of the per-file closure inside UploadFile (source lines 97-152):
read the first 512 bytes (failing on an empty part), sniff the content type
(the sniffing function http.DetectContentType is abstracted as the parameter
sniff), check it against the allow-list, compute the stored name (a 25-rune
random string plus the original extension when renaming), create the
destination file and copy the full content (the Seek back to the start means
the whole content is copied; os.Create and io.Copy are modelled as
succeeding).  On success it returns the new record and the written path. -/
def processOne (sniff : List Nat → String) (rnd : Nat → Nat) (cfg : Tools)
    (renameFile : Bool) (uploadDir : String) (p : Part) :
    Except String (UploadedFile × String) :=
  match read512 p.content with
  | .error e => .error e
  | .ok buf =>
    let fileType := sniff buf
    let allowed :=
      if cfg.AllowedTypes.length > 0 then
        cfg.AllowedTypes.any fun x => equalFold x fileType
      else true
    if !allowed then .error "the uploaded file type is not permitted"
    else
      let newName :=
        if renameFile then String.mk (RandomString rnd 25) ++ fileExt p.filename
        else p.filename
      .ok (⟨newName, p.filename, p.content.length⟩, uploadDir ++ "/" ++ newName)

/-- The nested loops over r.MultipartForm.File (source lines 94-157),
flattened to one list of parts in encounter order.  The accumulator recs
mirrors upLoadedFiles; writes is the trace of files created on disk.  When a
part fails, the closure returns nil, so the accumulated records are discarded
and the error is returned (source lines 100, 107, 125, 153-155); later parts
are never processed. -/
def uploadLoop (sniff : List Nat → String) (rnd : Nat → Nat → Nat) (cfg : Tools)
    (renameFile : Bool) (uploadDir : String) :
    List Part → Nat → List UploadedFile → List String →
    List UploadedFile × List String × Option String
  | [], _, recs, writes => (recs, writes, none)
  | p :: rest, i, recs, writes =>
    match processOne sniff (rnd i) cfg renameFile uploadDir p with
    | .error e => ([], writes, some e)
    | .ok (uf, w) =>
      uploadLoop sniff rnd cfg renameFile uploadDir rest (i + 1)
        (recs ++ [uf]) (writes ++ [w])

/-- Outcome of UploadFile: a normal return of (records, nil), a return of
(records, error), or process termination via log.Fatal. -/
inductive UploadResult where
  | ok : List UploadedFile → UploadResult
  | err : List UploadedFile → String → UploadResult
  | fatal : String → UploadResult
deriving DecidableEq

/-- The default applied to MaxFileSize (source lines 81-83): when it is 0 the
method sets it, through the pointer receiver, to 1024*1024*1024. -/
def defaultedConfig (cfg : Tools) : Tools :=
  if cfg.MaxFileSize = 0 then { cfg with MaxFileSize := 1073741824 } else cfg

/-- The part of UploadFile after the MaxFileSize defaulting: parse the
multipart form (log.Fatal on failure, source lines 84-88), ensure the upload
directory exists, then run the per-part loop. -/
def uploadFileRun (sniff : List Nat → String) (rnd : Nat → Nat → Nat) (cfg : Tools)
    (r : Request) (uploadDir : String) (renameFile : Bool) :
    UploadResult × List String :=
  match r.parse cfg.MaxFileSize with
  | .error e => (.fatal e, [])
  | .ok parts =>
    match CreateDirIfNotExists uploadDir with
    | .error e => (.err [] e, [])
    | .ok _ =>
      match uploadLoop sniff rnd cfg renameFile uploadDir parts 0 [] [] with
      | (recs, writes, none) => (.ok recs, writes)
      | (recs, writes, some e) => (.err recs e, writes)

/-- UploadFile (source lines 73-160).  The variadic rename parameter is a
list whose first element, when present, overrides the default true.  The
returned Tools component is the configuration as left on the receiver after
the call (the MaxFileSize defaulting is its only assignment). -/
def UploadFile (sniff : List Nat → String) (rnd : Nat → Nat → Nat) (cfg : Tools)
    (r : Request) (uploadDir : String) (rename : List Bool) :
    (UploadResult × List String) × Tools :=
  let renameFile := match rename with | [] => true | b :: _ => b
  let cfg' := defaultedConfig cfg
  (uploadFileRun sniff rnd cfg' r uploadDir renameFile, cfg')

/-- Outcome of UploadOneFile: a record, an error return, process termination,
or a runtime panic (the unchecked index uploadedFile[0]). -/
inductive OneFileResult where
  | ok : UploadedFile → OneFileResult
  | err : String → OneFileResult
  | fatal : String → OneFileResult
  | crash : String → OneFileResult
deriving DecidableEq

/-- UploadOneFile (source lines 57-69): delegate to UploadFile, propagate an
error, and otherwise return uploadedFile[0] — an access that panics when the
returned slice is empty, since the code never checks its length. -/
def UploadOneFile (sniff : List Nat → String) (rnd : Nat → Nat → Nat) (cfg : Tools)
    (r : Request) (uploadDir : String) (rename : List Bool) :
    OneFileResult × Tools :=
  let renameFile := match rename with | [] => true | b :: _ => b
  let u := UploadFile sniff rnd cfg r uploadDir [renameFile]
  (match u.1.1 with
   | .fatal e => .fatal e
   | .err _ e => .err e
   | .ok recs =>
     match recs with
     | [] => .crash "index out of range"
     | uf :: _ => .ok uf,
   u.2)

/-- What follows the JSON values of a body stream. -/
inductive Trailing where
  | eof : Trailing
  | junk : Trailing
deriving DecidableEq

/-- A JSON request, reduced to what ReadJSON consumes: the content-type
header, the body size in bytes, and the body as a stream of well-formed JSON
values (of an abstract type) followed by either end-of-input or trailing
non-JSON garbage. -/
structure JSONRequest (α : Type) where
  contentType : String
  bodySize : Nat
  values : List α
  trailing : Trailing

/-- ReadJSON (source lines 215-268).  The json.Decoder is modelled on the
stream of the request: decoding the first value applies the abstract
decodeInto (given the strictness flag !AllowUnknownFields), whose some-result
stands for the classified decode errors of the switch in the source; the cap
of http.MaxBytesReader appears as the size comparison; after a successful
first decode, a second Decode yields io.EOF exactly when no value and no
garbage remains, and anything else is rejected with the one-JSON-value
error. -/
def ReadJSON {α : Type} (decodeInto : Bool → α → Option String) (cfg : Tools)
    (r : JSONRequest α) : Option String :=
  let maxJSONSize := if cfg.MaxJSONSize > 0 then cfg.MaxJSONSize else 1048576
  if r.contentType ≠ "application/json" then
    some ("unexpected content type of " ++ r.contentType)
  else if maxJSONSize < r.bodySize then
    some ("body must not be larger than " ++ toString maxJSONSize ++ " bytes")
  else
    match r.values with
    | [] =>
      match r.trailing with
      | .eof => some "body must not be empty"
      | .junk => some "body contains badly formed JSON"
    | v :: rest =>
      match decodeInto (!cfg.AllowUnknownFields) v with
      | some e => some e
      | none =>
        match rest, r.trailing with
        | [], .eof => none
        | _, _ => some "body must contain only one JSON value"

/-- The observable output of a ResponseWriter: headers set, status written,
body bytes written. -/
structure ResponseTrace where
  headers : List (String × String)
  status : Option Nat
  body : Option (List Nat)
deriving DecidableEq

/-- http.Header.Set: replace the value of the key, or add it. -/
def setHeader (hs : List (String × String)) (k v : String) : List (String × String) :=
  if hs.any (fun p => p.1 == k) then
    hs.map fun p => if p.1 == k then (k, v) else p
  else hs ++ [(k, v)]

/-- Applying the first optional header map: for each key the code sets every
value in turn, so the last value wins (source lines 278-284). -/
def applyHeaderMap (hs : List (String × String)) (m : List (String × List String)) :
    List (String × String) :=
  m.foldl (fun acc kv => kv.2.foldl (fun a v => setHeader a kv.1 v) acc) hs

/-- WriteJSON (source lines 272-294).  json.Marshal of the arbitrary payload
is abstracted as the out parameter (its bytes on success, its error
otherwise).  On a marshal error the function returns before touching the
ResponseWriter; otherwise it sets the optional headers, sets content-type,
writes the status, and writes the body (w.Write is modelled as succeeding). -/
def WriteJSON (out : Except String (List Nat)) (status : Nat)
    (headers : List (List (String × List String))) :
    Except String Unit × ResponseTrace :=
  match out with
  | .error e => (.error e, ⟨[], none, none⟩)
  | .ok bytes =>
    let h1 := match headers with
      | [] => ([] : List (String × String))
      | m :: _ => applyHeaderMap [] m
    let h2 := setHeader h1 "content-type" "application/json"
    (.ok (), ⟨h2, some status, some bytes⟩)

/-! Helper lemmas shared by the claim theorems. -/

theorem randomStringSourceList_length : randomStringSourceList.length = 64 := rfl

/-- Every 64-bit prime is odd: it is divisible by 2 only if it equals 2,
which is far below the lower bound 2 to the 63rd. -/
theorem isPrimeDraw_odd {p : Nat} (h : isPrimeDraw p) : p % 2 = 1 := by
  obtain ⟨hp, hlb, -⟩ := h
  rcases Nat.mod_two_eq_zero_or_one p with h0 | h1
  · have h2 : 2 ∣ p := Nat.dvd_of_mod_eq_zero h0
    rcases hp.eq_one_or_self_of_dvd 2 h2 with h | h
    · norm_num at h
    · rw [← h] at hlb
      norm_num at hlb
  · exact h1

/-- Claim C1 counterexample: the claim asserts every alphabet index in 0..63
is produced for some value of the random source; in fact no sequence of
rand.Prime draws can ever produce the character at index 0 (the letter a),
because every 64-bit prime is odd and the index is the draw modulo 64. -/
theorem RandomString_never_yields_a :
    ¬ ∃ oracle : Nat → Nat, (∀ k, isPrimeDraw (oracle k)) ∧
      'a' ∈ RandomString oracle 1 := by
  rintro ⟨oracle, hdraws, hmem⟩
  have hchar : ∀ j : Nat, j < 64 → j % 2 = 1 →
      randomStringSourceList.getD j ' ' ≠ 'a' := by decide
  simp only [RandomString, List.range_succ, List.range_zero, List.nil_append,
    List.map_cons, List.map_nil, List.mem_singleton] at hmem
  have hlen : randomStringSourceList.length = 64 := randomStringSourceList_length
  have hlt : oracle 0 % randomStringSourceList.length < 64 := by
    rw [hlen]
    exact Nat.mod_lt _ (by norm_num)
  have hodd : (oracle 0 % randomStringSourceList.length) % 2 = 1 := by
    rw [hlen, Nat.mod_mod_of_dvd _ (by norm_num : (2 : Nat) ∣ 64)]
    exact isPrimeDraw_odd (hdraws 0)
  exact hchar _ hlt hodd hmem.symm

/-- Claim C1 (amended): each character of RandomString is drawn from the
64-character alphabet, but not uniformly: every draw of the source is a
64-bit prime and hence odd, so the derived index (the draw modulo 64) is
always odd and only the 32 characters at odd alphabet positions can ever be
produced.  Stated for any oracle of odd draws; the lemma isPrimeDraw_odd
shows every sequence of rand.Prime draws is such an oracle. -/
theorem RandomString_odd_draws_odd_positions (oracle : Nat → Nat) (n : Nat)
    (hodd : ∀ k, oracle k % 2 = 1) :
    ∀ c ∈ RandomString oracle n,
      ∃ j, j < 64 ∧ j % 2 = 1 ∧ c = randomStringSourceList.getD j ' ' := by
  intro c hc
  rw [RandomString] at hc
  obtain ⟨i, hi, rfl⟩ := List.mem_map.mp hc
  refine ⟨oracle i % randomStringSourceList.length, ?_, ?_, rfl⟩
  · rw [randomStringSourceList_length]
    exact Nat.mod_lt _ (by norm_num)
  · rw [randomStringSourceList_length,
      Nat.mod_mod_of_dvd _ (by norm_num : (2 : Nat) ∣ 64)]
    exact hodd i

/-- Claim C1 witness: with the constant odd draw 1, the produced character b
indeed sits at an odd alphabet position. -/
theorem RandomString_odd_draws_odd_positions_witness :
    ∃ j, j < 64 ∧ j % 2 = 1 ∧ 'b' = randomStringSourceList.getD j ' ' :=
  RandomString_odd_draws_odd_positions (fun _ => 1) 3 (fun _ => rfl) 'b' (by decide)

/-- Claim C9: for every n and every outcome of the random source,
RandomString returns exactly n characters, each a member of the fixed
64-character alphabet. -/
theorem RandomString_length_and_alphabet (oracle : Nat → Nat) (n : Nat) :
    (RandomString oracle n).length = n ∧
      ∀ c ∈ RandomString oracle n, c ∈ randomStringSourceList := by
  constructor
  · simp [RandomString]
  · intro c hc
    rw [RandomString] at hc
    obtain ⟨i, hi, rfl⟩ := List.mem_map.mp hc
    have hlt : oracle i % randomStringSourceList.length < randomStringSourceList.length := by
      rw [randomStringSourceList_length]
      exact Nat.mod_lt _ (by norm_num)
    rw [List.getD_eq_getElem _ _ hlt]
    exact List.getElem_mem hlt

/-- Claim C2: the Slugify regex class is a-z, slash, d (a typo for the
digit class), so ASCII digits are replaced by hyphens while the slash is
preserved; the spec-modelled transform keeps digits and replaces the
slash.  Both behaviors are exhibited at the simplest inputs. -/
theorem Slugify_regex_typo_divergence :
    Slugify "a1b" = .ok "a-b" ∧ SlugifySpec "a1b" = .ok "a1b" ∧
      Slugify "a/b" = .ok "a/b" ∧ SlugifySpec "a/b" = .ok "a-b" :=
  ⟨rfl, rfl, rfl, rfl⟩

/-- Helper: a part with empty content fails at the initial 512-byte read
with the io.EOF error, before the type check and before any write. -/
theorem processOne_empty_content (sniff : List Nat → String) (rnd : Nat → Nat)
    (cfg : Tools) (b : Bool) (dir : String) (q : Part) (h : q.content = []) :
    processOne sniff rnd cfg b dir q = .error "EOF" := by
  unfold processOne read512
  rw [h]
  rfl

/-- Helper: a part with non-empty content whose sniffed type matches no
entry of the non-empty allow-list fails with the permission error. -/
theorem processOne_not_allowed (sniff : List Nat → String) (rnd : Nat → Nat)
    (cfg : Tools) (b : Bool) (dir : String) (p : Part)
    (hContent : p.content ≠ [])
    (hTypes : cfg.AllowedTypes ≠ [])
    (hNoMatch : (cfg.AllowedTypes.any fun x => equalFold x (sniff (buf512 p.content))) = false) :
    processOne sniff rnd cfg b dir p = .error "the uploaded file type is not permitted" := by
  have hne : p.content.isEmpty = false := by
    cases hcp : p.content with
    | nil => exact absurd hcp hContent
    | cons a l => rfl
  have hlen : cfg.AllowedTypes.length > 0 := by
    cases hc : cfg.AllowedTypes with
    | nil => exact absurd hc hTypes
    | cons a l => simp
  unfold processOne read512
  simp [hne, hlen, hNoMatch]

/-- Helper: when some part of the list has empty content, the loop ends in
an error, and the record accumulator is discarded (the closure returns nil
on every error), whatever was accumulated before. -/
theorem uploadLoop_empty_part (sniff : List Nat → String) (rnd : Nat → Nat → Nat)
    (cfg : Tools) (b : Bool) (dir : String) :
    ∀ (parts : List Part) (i : Nat) (recs : List UploadedFile) (writes : List String),
      (∃ p ∈ parts, p.content = []) →
      ∃ w e, uploadLoop sniff rnd cfg b dir parts i recs writes = ([], w, some e) := by
  intro parts
  induction parts with
  | nil =>
    intro i recs writes h
    obtain ⟨p, hp, -⟩ := h
    cases hp
  | cons p rest ih =>
    intro i recs writes h
    unfold uploadLoop
    cases hpo : processOne sniff (rnd i) cfg b dir p with
    | error e =>
      exact ⟨writes, e, rfl⟩
    | ok pr =>
      obtain ⟨uf, wpath⟩ := pr
      obtain ⟨q, hq, hqc⟩ := h
      rcases List.mem_cons.mp hq with rfl | hqrest
      · rw [processOne_empty_content sniff (rnd i) cfg b dir q hqc] at hpo
        cases hpo
      · obtain ⟨w, e, hw⟩ := ih (i + 1) (recs ++ [uf]) (writes ++ [wpath])
          ⟨q, hqrest, hqc⟩
        exact ⟨w, e, hw⟩

/-- Helper: UploadFile unfolded to its run on the defaulted configuration,
with the resolved rename flag. -/
theorem UploadFile_eq (sniff : List Nat → String) (rnd : Nat → Nat → Nat)
    (cfg : Tools) (r : Request) (uploadDir : String) (rename : List Bool) :
    UploadFile sniff rnd cfg r uploadDir rename =
      (uploadFileRun sniff rnd (defaultedConfig cfg) r uploadDir
        (match rename with | [] => true | b :: _ => b), defaultedConfig cfg) := rfl

/-- Helper: when the parse and the directory check succeed, the run reduces
to the per-part loop. -/
theorem uploadFileRun_ok (sniff : List Nat → String) (rnd : Nat → Nat → Nat)
    (cfg : Tools) (r : Request) (uploadDir : String) (b : Bool) (parts : List Part)
    (hParse : r.parse cfg.MaxFileSize = .ok parts)
    (hDir : CreateDirIfNotExists uploadDir = .ok ()) :
    uploadFileRun sniff rnd cfg r uploadDir b =
      (match uploadLoop sniff rnd cfg b uploadDir parts 0 [] [] with
       | (recs, writes, none) => (.ok recs, writes)
       | (recs, writes, some e) => (.err recs e, writes)) := by
  unfold uploadFileRun
  rw [hParse, hDir]

/-- Claim C3: whenever ParseMultipartForm fails (malformed body or a
size-related failure), UploadFile does not return an error value: it calls
log.Fatal, modelled by the fatal outcome, terminating the process before
anything is written.  The return statement after log.Fatal in the source is
dead code. -/
theorem UploadFile_parse_failure_is_fatal (sniff : List Nat → String)
    (rnd : Nat → Nat → Nat) (cfg : Tools) (r : Request) (uploadDir : String)
    (rename : List Bool) (e : String)
    (hParse : r.parse (defaultedConfig cfg).MaxFileSize = .error e) :
    UploadFile sniff rnd cfg r uploadDir rename = ((.fatal e, []), defaultedConfig cfg) := by
  rw [UploadFile_eq]
  unfold uploadFileRun
  rw [hParse]

/-- Claim C3 witness: a request whose multipart parse fails makes the call
fatal instead of returning the error. -/
theorem UploadFile_parse_failure_is_fatal_witness :
    UploadFile (fun _ => "text/plain") (fun _ _ => 0) ⟨0, [], 0, false⟩
        ⟨fun _ => .error "multipart: NextPart: EOF"⟩ "uploads" [] =
      ((.fatal "multipart: NextPart: EOF", []), defaultedConfig ⟨0, [], 0, false⟩) :=
  UploadFile_parse_failure_is_fatal (fun _ => "text/plain") (fun _ _ => 0)
    ⟨0, [], 0, false⟩ ⟨fun _ => .error "multipart: NextPart: EOF"⟩ "uploads" []
    "multipart: NextPart: EOF" rfl

/-- Claim C4: a request that parses successfully but carries zero file parts
makes UploadFile return an empty record list with no error, and UploadOneFile
then dereferences index 0 of the empty slice: the call panics instead of
returning the required-one-file error the spec describes. -/
theorem UploadOneFile_zero_parts_panics :
    UploadOneFile (fun _ => "image/jpeg") (fun _ _ => 0) ⟨0, ["image/jpeg"], 0, false⟩
        ⟨fun _ => .ok []⟩ "uploads" [] =
      (.crash "index out of range", defaultedConfig ⟨0, ["image/jpeg"], 0, false⟩) := rfl

/-- Claim C5: with a non-empty allow-list and a first file part whose
sniffed type matches no entry case-insensitively, the whole call fails with
the type-not-permitted error, nothing is written for any part, no record is
returned, and the remaining parts are never processed (the conclusion holds
for every tail). -/
theorem UploadFile_rejects_disallowed_type (sniff : List Nat → String)
    (rnd : Nat → Nat → Nat) (cfg : Tools) (r : Request) (uploadDir : String)
    (rename : List Bool) (p : Part) (rest : List Part)
    (hTypes : cfg.AllowedTypes ≠ [])
    (hParse : r.parse (defaultedConfig cfg).MaxFileSize = .ok (p :: rest))
    (hDir : CreateDirIfNotExists uploadDir = .ok ())
    (hContent : p.content ≠ [])
    (hNoMatch : (cfg.AllowedTypes.any fun x => equalFold x (sniff (buf512 p.content))) = false) :
    UploadFile sniff rnd cfg r uploadDir rename =
      ((.err [] "the uploaded file type is not permitted", []), defaultedConfig cfg) := by
  have hTypes' : (defaultedConfig cfg).AllowedTypes = cfg.AllowedTypes := by
    unfold defaultedConfig
    split <;> rfl
  have hpo : ∀ b : Bool, processOne sniff (rnd 0) (defaultedConfig cfg) b uploadDir p =
      .error "the uploaded file type is not permitted" := by
    intro b
    refine processOne_not_allowed sniff (rnd 0) (defaultedConfig cfg) b uploadDir p
      hContent ?_ ?_
    · rw [hTypes']
      exact hTypes
    · rw [hTypes']
      exact hNoMatch
  rw [UploadFile_eq, uploadFileRun_ok sniff rnd (defaultedConfig cfg) r uploadDir
    _ (p :: rest) hParse hDir]
  unfold uploadLoop
  rw [hpo]

/-- Claim C5 witness: a text file against an image-only allow-list is
rejected with no record and no write. -/
theorem UploadFile_rejects_disallowed_type_witness :
    UploadFile (fun _ => "text/plain") (fun _ _ => 0) ⟨0, ["image/png"], 0, false⟩
        ⟨fun _ => .ok [⟨"a.txt", [104]⟩]⟩ "uploads" [] =
      ((.err [] "the uploaded file type is not permitted", []),
        defaultedConfig ⟨0, ["image/png"], 0, false⟩) :=
  UploadFile_rejects_disallowed_type (fun _ => "text/plain") (fun _ _ => 0)
    ⟨0, ["image/png"], 0, false⟩ ⟨fun _ => .ok [⟨"a.txt", [104]⟩]⟩ "uploads" []
    ⟨"a.txt", [104]⟩ [] (by decide) rfl rfl (by decide) (by decide)

/-- Claim C10: a request containing a zero-byte file part always ends in an
error return with an empty record list (first conjunct), and the failing
part itself dies at the 512-byte sniffing read with the io.EOF error,
producing no record and no write for it (second conjunct). -/
theorem UploadFile_empty_part_errors (sniff : List Nat → String)
    (rnd : Nat → Nat → Nat) (cfg : Tools) (r : Request) (uploadDir : String)
    (rename : List Bool) (parts : List Part)
    (hParse : r.parse (defaultedConfig cfg).MaxFileSize = .ok parts)
    (hDir : CreateDirIfNotExists uploadDir = .ok ())
    (hEmpty : ∃ p ∈ parts, p.content = []) :
    (∃ w e, UploadFile sniff rnd cfg r uploadDir rename =
        ((.err [] e, w), defaultedConfig cfg)) ∧
    (∀ (rnd1 : Nat → Nat) (b : Bool) (q : Part), q.content = [] →
      processOne sniff rnd1 cfg b uploadDir q = .error "EOF") := by
  constructor
  · obtain ⟨w, e, hw⟩ := uploadLoop_empty_part sniff rnd (defaultedConfig cfg)
      (match rename with | [] => true | b :: _ => b) uploadDir parts 0 [] [] hEmpty
    refine ⟨w, e, ?_⟩
    rw [UploadFile_eq, uploadFileRun_ok sniff rnd (defaultedConfig cfg) r uploadDir
      _ parts hParse hDir, hw]
  · intro rnd1 b q hq
    exact processOne_empty_content sniff rnd1 cfg b uploadDir q hq

/-- Claim C10 witness: a single zero-byte part yields an error return with
no records, and processing that part yields the EOF read error. -/
theorem UploadFile_empty_part_errors_witness :
    (∃ w e, UploadFile (fun _ => "application/octet-stream") (fun _ _ => 0)
        ⟨0, [], 0, false⟩ ⟨fun _ => .ok [⟨"empty.txt", []⟩]⟩ "uploads" [] =
        ((.err [] e, w), defaultedConfig ⟨0, [], 0, false⟩)) ∧
    (∀ (rnd1 : Nat → Nat) (b : Bool) (q : Part), q.content = [] →
      processOne (fun _ => "application/octet-stream") rnd1 ⟨0, [], 0, false⟩ b
        "uploads" q = .error "EOF") :=
  UploadFile_empty_part_errors (fun _ => "application/octet-stream") (fun _ _ => 0)
    ⟨0, [], 0, false⟩ ⟨fun _ => .ok [⟨"empty.txt", []⟩]⟩ "uploads" []
    [⟨"empty.txt", []⟩] rfl rfl ⟨⟨"empty.txt", []⟩, by simp, rfl⟩

/-- Claim C8 counterexample: calling UploadFile on a configuration whose
MaxFileSize is 0 mutates the receiver, leaving MaxFileSize at the 1 GiB
default, so the configuration after the call differs from the one before. -/
theorem UploadFile_mutates_MaxFileSize :
    (UploadFile (fun _ => "text/plain") (fun _ _ => 0) ⟨0, [], 0, false⟩
      ⟨fun _ => .ok []⟩ "uploads" []).2 ≠ (⟨0, [], 0, false⟩ : Tools) := by
  decide

/-- Claim C8 (amended): UploadFile leaves AllowedTypes, MaxJSONSize and
AllowUnknownFields unchanged, and leaves MaxFileSize unchanged except when it
is 0, in which case the call sets it to the default 1073741824; UploadOneFile
leaves the configuration exactly as UploadFile does.  The other operations
never assign to the receiver, so they have no configuration effect in this
embedding. -/
theorem UploadFile_config_frame (sniff : List Nat → String) (rnd : Nat → Nat → Nat)
    (cfg : Tools) (r : Request) (uploadDir : String) (rename : List Bool) :
    ((UploadFile sniff rnd cfg r uploadDir rename).2.MaxFileSize =
        if cfg.MaxFileSize = 0 then 1073741824 else cfg.MaxFileSize) ∧
    (UploadFile sniff rnd cfg r uploadDir rename).2.AllowedTypes = cfg.AllowedTypes ∧
    (UploadFile sniff rnd cfg r uploadDir rename).2.MaxJSONSize = cfg.MaxJSONSize ∧
    (UploadFile sniff rnd cfg r uploadDir rename).2.AllowUnknownFields = cfg.AllowUnknownFields ∧
    (UploadOneFile sniff rnd cfg r uploadDir rename).2 =
      (UploadFile sniff rnd cfg r uploadDir rename).2 := by
  have h2 : (UploadFile sniff rnd cfg r uploadDir rename).2 = defaultedConfig cfg := rfl
  have h3 : (UploadOneFile sniff rnd cfg r uploadDir rename).2 = defaultedConfig cfg := rfl
  rw [h2, h3]
  by_cases h : cfg.MaxFileSize = 0 <;> simp [defaultedConfig, h]

/-- Claim C6: once the first JSON value decodes successfully, the body is
accepted exactly when nothing but end-of-input follows; a second value or
trailing garbage is rejected with the one-JSON-value error. -/
theorem ReadJSON_one_value_check {α : Type} (decodeInto : Bool → α → Option String)
    (cfg : Tools) (bs : Nat) (v : α) (rest : List α) (tr : Trailing)
    (hSize : bs ≤ (if cfg.MaxJSONSize > 0 then cfg.MaxJSONSize else 1048576))
    (hDec : decodeInto (!cfg.AllowUnknownFields) v = none) :
    (rest = [] → tr = .eof →
      ReadJSON decodeInto cfg ⟨"application/json", bs, v :: rest, tr⟩ = none) ∧
    (rest ≠ [] →
      ReadJSON decodeInto cfg ⟨"application/json", bs, v :: rest, tr⟩ =
        some "body must contain only one JSON value") ∧
    (tr = .junk →
      ReadJSON decodeInto cfg ⟨"application/json", bs, v :: rest, tr⟩ =
        some "body must contain only one JSON value") := by
  have hred : ReadJSON decodeInto cfg ⟨"application/json", bs, v :: rest, tr⟩ =
      (match rest, tr with
       | [], .eof => none
       | _, _ => some "body must contain only one JSON value") := by
    unfold ReadJSON
    dsimp only
    rw [if_neg (by simp : ¬("application/json" ≠ "application/json")),
      if_neg (Nat.not_lt.mpr hSize), hDec]
  refine ⟨?_, ?_, ?_⟩
  · intro h1 h2
    subst h1
    subst h2
    rw [hred]
  · intro h1
    rw [hred]
    cases rest with
    | nil => exact absurd rfl h1
    | cons x xs => rfl
  · intro h1
    subst h1
    rw [hred]
    cases rest <;> rfl

/-- Claim C6 witness: with two values before end-of-input the call reports
the one-JSON-value error, and the premises are all concrete. -/
theorem ReadJSON_one_value_check_witness :
    (([2] : List Nat) = [] → Trailing.eof = Trailing.eof →
      ReadJSON (fun _ _ => none) ⟨0, [], 0, false⟩
        (⟨"application/json", 10, [1, 2], .eof⟩ : JSONRequest Nat) = none) ∧
    (([2] : List Nat) ≠ [] →
      ReadJSON (fun _ _ => none) ⟨0, [], 0, false⟩
        (⟨"application/json", 10, [1, 2], .eof⟩ : JSONRequest Nat) =
        some "body must contain only one JSON value") ∧
    (Trailing.eof = Trailing.junk →
      ReadJSON (fun _ _ => none) ⟨0, [], 0, false⟩
        (⟨"application/json", 10, [1, 2], .eof⟩ : JSONRequest Nat) =
        some "body must contain only one JSON value") :=
  ReadJSON_one_value_check (fun _ _ => none) ⟨0, [], 0, false⟩
    10 1 [2] .eof (by decide) rfl

/-- Claim C7: when serialization fails, WriteJSON returns the serialization
error and the response trace is empty: no header set, no status written, no
body bytes emitted. -/
theorem WriteJSON_marshal_error_writes_nothing (e : String) (status : Nat)
    (headers : List (List (String × List String))) :
    WriteJSON (.error e) status headers = (.error e, ⟨[], none, none⟩) := rfl

end Toolkit
